import Mathlib

/-!
Verification of the video-generation orchestration and reconciliation core of
the repository (backend/app/tools/video_generations.py and the provider
adapters under backend/app/integrations/video_generation/).

The Python code is shallowly embedded: pydantic models become structures,
`Literal` string enums become inductive types, the network / filesystem
effects of the reconciliation pass (`service.get_status`, `Path.exists`,
`_download_video`'s HTTP fetch) are abstracted as an explicit environment
record `PollEnv`, and `asyncio.gather` over independent per-leaf tasks is
rendered as a deterministic map (each task writes only its own slot, so the
completion order is irrelevant to the merged result).
-/

namespace VideoGen

/-- `Literal["sora", "veo"]` provider tag. -/
inductive Provider where
  | sora
  | veo
deriving DecidableEq, Repr

/-- `GeneratedVideo.status : Literal["queued", "in_progress", "completed", "failed"]`
(backend/app/integrations/video_generation/types.py). -/
inductive VideoStatus where
  | queued
  | in_progress
  | completed
  | failed
deriving DecidableEq, Repr

/-- Segment / overall status
`Literal["pending", "in_progress", "completed", "failed"]`
(backend/app/tools/video_generations.py, `SegmentGeneration.status` and
`VideoGenerations.status`). -/
inductive AggStatus where
  | pending
  | in_progress
  | completed
  | failed
deriving DecidableEq, Repr

/-- `GeneratedVideo` (types.py). `Optional[...]` fields become `Option`. -/
structure GeneratedVideo where
  id : String
  status : VideoStatus
  progress : Option Nat := none
  created_at : String
  video_url : Option String := none
  thumbnail_url : Option String := none
  duration : Option Int := none
  resolution : Option String := none
  has_audio : Option Bool := none
  selected : Bool := false
  error : Option String := none
deriving DecidableEq, Repr

/-- `GenerationResult` (types.py). -/
structure GenerationResult where
  input_index : Nat
  provider : Provider
  video : GeneratedVideo
deriving DecidableEq, Repr

/-- `SegmentGeneration` (video_generations.py). -/
structure SegmentGeneration where
  segment_index : Nat
  scene_description : Option String := none
  status : AggStatus := .pending
  generation_results : List GenerationResult := []
deriving DecidableEq, Repr

/-- `VideoGenerations` (video_generations.py). -/
structure VideoGenerations where
  project_id : String
  created_at : String
  status : AggStatus := .pending
  segments : List SegmentGeneration := []
deriving DecidableEq, Repr

/-- `_derive_segment_status` (video_generations.py lines 122-137): derive a
segment status from the list of generation results. -/
def derive_segment_status (results : List GenerationResult) : AggStatus :=
  if results.isEmpty then .pending
  else
    let statuses := results.map fun r => r.video.status
    if statuses.all fun s => decide (s = VideoStatus.completed) then .completed
    else if statuses.any fun s => decide (s = VideoStatus.failed) then .failed
    else if statuses.any fun s =>
        decide (s = VideoStatus.in_progress) || decide (s = VideoStatus.queued) then
      .in_progress
    else .pending

/-- `_derive_overall_status` (video_generations.py lines 140-155): derive the
root status from the segment statuses.  Segment statuses have no `queued`
value, so the source checks only `in_progress` in the third step. -/
def derive_overall_status (segments : List SegmentGeneration) : AggStatus :=
  if segments.isEmpty then .pending
  else
    let statuses := segments.map fun s => s.status
    if statuses.all fun s => decide (s = AggStatus.completed) then .completed
    else if statuses.any fun s => decide (s = AggStatus.failed) then .failed
    else if statuses.any fun s => decide (s = AggStatus.in_progress) then .in_progress
    else .pending

/-- Modelled from the spec's wording of the shared derivation rule (§4.4/§8):
"all results completed ⇒ completed; any failed ⇒ failed; any
{queued, in_progress} ⇒ in_progress; empty result list ⇒ pending", with the
priority ordering all-completed > any-failed > any-active > pending.  It is
stated polymorphically over the element type; instantiating the three
classification predicates at the leaf-status and segment-status types recovers
the two source functions (the segment-status type has no `queued` value, so
its active predicate is membership in `{in_progress}`). -/
def spec_status_rule (isCompleted isFailed isActive : α → Bool)
    (xs : List α) : AggStatus :=
  if xs.isEmpty then .pending
  else if xs.all isCompleted then .completed
  else if xs.any isFailed then .failed
  else if xs.any isActive then .in_progress
  else .pending

/-- Python `min(xs, key=key)`: scans left to right keeping the element with
the strictly smallest key, so the first element attaining the minimum wins a
tie.  Python raises `ValueError` on an empty list; the adapters only apply it
to the concrete non-empty `SUPPORTED_DURATIONS` lists, so the empty case here
returns a dummy `0`. -/
def pymin (key : Int → Nat) : List Int → Int
  | [] => 0
  | x :: xs => xs.foldl (fun best y => if key y < key best then y else best) x

/-- `SoraProvider.SUPPORTED_DURATIONS` (providers/sora.py line 33). -/
def SoraProvider.SUPPORTED_DURATIONS : List Int := [4, 8, 12]

/-- `SoraProvider._validate_duration` (providers/sora.py lines 65-71): keep a
supported duration unchanged, otherwise take the closest supported duration by
absolute difference (Python `abs` of the int difference, modelled as
`Int.natAbs`). -/
def SoraProvider.validate_duration (duration : Int) : Int :=
  if duration ∈ SoraProvider.SUPPORTED_DURATIONS then duration
  else pymin (fun x => (x - duration).natAbs) SoraProvider.SUPPORTED_DURATIONS

/-- `VeoProvider.SUPPORTED_DURATIONS` (providers/veo.py line 26). -/
def VeoProvider.SUPPORTED_DURATIONS : List Int := [4, 6, 8]

/-- `VeoProvider._validate_duration` (providers/veo.py lines 62-68), same
shape as the Sora variant over `[4, 6, 8]`. -/
def VeoProvider.validate_duration (duration : Int) : Int :=
  if duration ∈ VeoProvider.SUPPORTED_DURATIONS then duration
  else pymin (fun x => (x - duration).natAbs) VeoProvider.SUPPORTED_DURATIONS

/-- Python `round(x)` on a float: round half to even (banker's rounding).
Floats are modelled as rationals. -/
def python_round (q : ℚ) : Int :=
  let f := ⌊q⌋
  let frac := q - (f : ℚ)
  if frac < 1/2 then f
  else if (1 : ℚ)/2 < frac then f + 1
  else if f % 2 = 0 then f else f + 1

/-- `_get_validated_duration` (video_generations.py lines 158-163): round the
float duration to an int, then take the nearest of the supported `[4, 6, 8]`
by absolute difference. -/
def get_validated_duration (duration : ℚ) : Int :=
  let duration_int := python_round duration
  pymin (fun x => (x - duration_int).natAbs) [4, 6, 8]

/-- `GenerationInput` of the storyboard (video_project_state.py); only the
fields read by the orchestrator's config construction are relevant here. -/
structure GenerationInput where
  provider : String
  prompt : String := ""
deriving DecidableEq, Repr

/-- `Segment` of the storyboard (video_project_state.py). -/
structure StoryboardSegment where
  scene_description : String
  duration : ℚ
  generation_inputs : List GenerationInput := []
deriving DecidableEq, Repr

/-- `Storyboard` (video_project_state.py). -/
structure Storyboard where
  segments : List StoryboardSegment
deriving DecidableEq, Repr

/-- `VideoProjectState` (video_project_state.py), restricted to the fields
`generate_videos_from_project` reads when building configs. -/
structure VideoProjectState where
  aspect_ratio : String := "16:9"
  storyboard : Storyboard
deriving DecidableEq, Repr

/-- `GenerationConfig` (types.py); `resolution` is the fixed `"720p"` and is
omitted since nothing here depends on it. -/
structure GenerationConfig where
  duration : Int
  aspect_ratio : String
deriving DecidableEq, Repr

/-- The `GenerationConfig` that `generate_videos_from_project` builds for one
storyboard segment (video_generations.py lines 192-201). -/
def segment_generation_config (state : VideoProjectState)
    (segment : StoryboardSegment) : GenerationConfig :=
  { duration := get_validated_duration segment.duration,
    aspect_ratio :=
      if state.aspect_ratio = "16:9" ∨ state.aspect_ratio = "9:16" then
        state.aspect_ratio
      else "9:16" }

/-- The per-segment configs passed to `service.generate_batch` by the
orchestrator loop, in segment order (video_generations.py lines 192-211). -/
def generate_videos_configs (state : VideoProjectState) : List GenerationConfig :=
  state.storyboard.segments.map (segment_generation_config state)

/-- Outcome of the `try` body of `_download_video` (video_generations.py
lines 320-343): success, or one of the three caught exception classes with
its detail. -/
inductive DownloadOutcome where
  | success
  | http_status_error (code : Nat) (text : String)
  | request_error (message : String)
  | os_error (message : String)
deriving DecidableEq, Repr

/-- `_download_video`'s return value (video_generations.py lines 302-343):
`None` on success, otherwise the formatted message of the caught exception
(`e.response.text[:200]` is Python slicing, modelled by `String.take`). -/
def download_video_result : DownloadOutcome → Option String
  | .success => none
  | .http_status_error code text =>
      some ("HTTP error " ++ toString code ++ ": " ++ text.take 200)
  | .request_error message => some ("Request error: " ++ message)
  | .os_error message => some ("File error: " ++ message)

/-- The I/O performed by one reconciliation pass, abstracted per call site:
`get_status` is `service.get_status` (a provider response, or the `str` of a
raised exception), `path_exists` is `Path.exists`, `download` is the HTTP
fetch plus file write inside `_download_video` (url, output path, provider,
api key), and `openai_api_key` is `os.environ.get("OPENAI_API_KEY")`. -/
structure PollEnv where
  get_status : Provider → String → Except String GeneratedVideo
  path_exists : String → Bool
  download : String → String → Provider → Option String → DownloadOutcome
  openai_api_key : Option String := none

/-- `get_video_local_path` (video_generations.py lines 265-299); `pathlib`
joins rendered as `/`-separated strings. -/
def get_video_local_path (project_root project_id : String)
    (segment_index input_index : Nat) (video_id : String) : String :=
  project_root ++ "/data" ++
    "/video_generations_result_" ++ project_id ++
    "/segment_" ++ toString segment_index ++
    "/generation_result_" ++ toString input_index ++
    "/generated_video_" ++ video_id ++ ".mp4"

/-- Python truthiness of an optional string (`if video.video_url and ...`):
`None` and `""` are falsy. -/
def truthy : Option String → Bool
  | none => false
  | some s => !(s == "")

/-- The `videos_to_check` collection loop (video_generations.py lines
374-379): every leaf whose video status is `queued` or `in_progress`,
tagged with its positional `(seg_idx, res_idx)`. -/
def videos_to_check (vg : VideoGenerations) : List (Nat × Nat × GenerationResult) :=
  vg.segments.enum.flatMap fun p =>
    p.2.generation_results.enum.filterMap fun q =>
      if q.2.video.status = .queued ∨ q.2.video.status = .in_progress then
        some (p.1, q.1, q.2)
      else none

/-- `check_status` (lines 382-389): one status poll, catching any exception
into the error slot. -/
def check_status (env : PollEnv) (seg_idx res_idx : Nat) (result : GenerationResult) :
    Nat × Nat × Option GeneratedVideo × Option String :=
  match env.get_status result.provider result.video.id with
  | .ok updated_video => (seg_idx, res_idx, some updated_video, none)
  | .error e => (seg_idx, res_idx, none, some e)

/-- `status_results` (lines 391-395): `asyncio.gather` over the per-leaf
status tasks, rendered as a map (each task fills only its own slot). -/
def status_results (env : PollEnv) (vg : VideoGenerations) :
    List (Nat × Nat × Option GeneratedVideo × Option String) :=
  (videos_to_check vg).map fun t => check_status env t.1 t.2.1 t.2.2

/-- The `updated_videos` dict-building loop (lines 397-409) as an
association list: a successful check contributes the provider's video; a
failed check with a truthy (non-empty) detail contributes the original video
with `error = "Status check failed: <detail>"`; a falsy (empty) detail adds
nothing, since `elif error:` is skipped.  The Python
`for s_idx, segment in enumerate(...)` loop guarded by `s_idx == seg_idx`
is positional indexing, rendered with `getElem?` (indices produced by the
enumeration are always in range).  Keys `(seg_idx, res_idx)` are pairwise
distinct, so the association list is faithful to the dict. -/
def updated_videos (env : PollEnv) (vg : VideoGenerations) :
    List ((Nat × Nat) × GeneratedVideo) :=
  (status_results env vg).filterMap fun t =>
    match t with
    | (seg_idx, res_idx, some updated_video, _) =>
        some ((seg_idx, res_idx), updated_video)
    | (seg_idx, res_idx, none, some error) =>
        if error = "" then none
        else
          match vg.segments[seg_idx]? with
          | some segment =>
            match segment.generation_results[res_idx]? with
            | some original =>
              some ((seg_idx, res_idx),
                { original.video with error := some ("Status check failed: " ++ error) })
            | none => none
          | none => none
    | (_, _, none, none) => none

/-- Python `dict.get(key)` over the association lists built during the pass;
keys are distinct positional pairs, so the first match equals the last
write. -/
def dict_get {β : Type} : List ((Nat × Nat) × β) → Nat × Nat → Option β
  | [], _ => none
  | (k, v) :: rest, key => if key = k then some v else dict_get rest key

/-- The status-phase video of a leaf:
`updated_videos.get((seg_idx, res_idx), result.video)`, the expression used
at lines 416, 431 and 461 of video_generations.py. -/
def status_video (env : PollEnv) (vg : VideoGenerations)
    (seg_idx res_idx : Nat) (result : GenerationResult) : GeneratedVideo :=
  (dict_get (updated_videos env vg) (seg_idx, res_idx)).getD result.video

/-- The `videos_to_download` collection loop (lines 411-425): for every leaf
take its status-phase video (`updated_videos.get(key, result.video)`),
compute the canonical local path from the positional `seg_idx`, the leaf's
`input_index` and that video's id, and keep leaves that are `completed` with
a truthy `video_url` whose path does not yet exist. -/
def videos_to_download (env : PollEnv) (vg : VideoGenerations) (project_root : String) :
    List (Nat × Nat × GenerationResult × String) :=
  vg.segments.enum.flatMap fun p =>
    p.2.generation_results.enum.filterMap fun q =>
      let video := status_video env vg p.1 q.1 q.2
      let local_path :=
        get_video_local_path project_root vg.project_id p.1 q.2.input_index video.id
      if video.status = .completed ∧ truthy video.video_url = true ∧
          env.path_exists local_path = false then
        some (p.1, q.1, q.2, local_path)
      else none

/-- `download_one` (lines 428-439): re-resolve the leaf's status-phase video,
attach the OpenAI key for Sora only, and run the download.  `video_url` is
non-`None` for every collected leaf, so the `getD ""` default is never
exercised. -/
def download_one (env : PollEnv) (vg : VideoGenerations)
    (seg_idx res_idx : Nat) (result : GenerationResult) (local_path : String) :
    Nat × Nat × Option String :=
  let video := status_video env vg seg_idx res_idx result
  let api_key := if result.provider = .sora then env.openai_api_key else none
  let error :=
    download_video_result
      (env.download (video.video_url.getD "") local_path result.provider api_key)
  (seg_idx, res_idx, error)

/-- `download_results` (lines 441-445): gathered download tasks. -/
def download_results (env : PollEnv) (vg : VideoGenerations) (project_root : String) :
    List (Nat × Nat × Option String) :=
  (videos_to_download env vg project_root).map fun t =>
    download_one env vg t.1 t.2.1 t.2.2.1 t.2.2.2

/-- The `download_errors` dict-building loop (lines 447-451): keep the
entries whose error string is truthy. -/
def download_errors (env : PollEnv) (vg : VideoGenerations) (project_root : String) :
    List ((Nat × Nat) × String) :=
  (download_results env vg project_root).filterMap fun t =>
    match t with
    | (seg_idx, res_idx, some error) =>
        if error = "" then none else some ((seg_idx, res_idx), error)
    | (_, _, none) => none

/-- Body of the rebuild loop (lines 457-475): one leaf of the returned
tree — the status-phase video, overlaid with a download error when one was
recorded for this position. -/
def update_result (env : PollEnv) (vg : VideoGenerations) (project_root : String)
    (seg_idx res_idx : Nat) (result : GenerationResult) : GenerationResult :=
  let video := status_video env vg seg_idx res_idx result
  let video :=
    match dict_get (download_errors env vg project_root) (seg_idx, res_idx) with
    | some err => { video with error := some ("Download failed: " ++ err) }
    | none => video
  { input_index := result.input_index, provider := result.provider, video := video }

/-- Per-segment rebuild (lines 455-486). -/
def update_segment (env : PollEnv) (vg : VideoGenerations) (project_root : String)
    (seg_idx : Nat) (segment : SegmentGeneration) : SegmentGeneration :=
  let updated_results :=
    segment.generation_results.enum.map fun q =>
      update_result env vg project_root seg_idx q.1 q.2
  { segment_index := segment.segment_index,
    scene_description := segment.scene_description,
    status := derive_segment_status updated_results,
    generation_results := updated_results }

/-- `poll_and_save_video_generations` (video_generations.py lines 346-496):
one reconciliation pass over the tree, pure in the poll environment. -/
def poll_and_save_video_generations (env : PollEnv) (vg : VideoGenerations)
    (project_root : String) : VideoGenerations :=
  let updated_segments :=
    vg.segments.enum.map fun p => update_segment env vg project_root p.1 p.2
  { project_id := vg.project_id,
    created_at := vg.created_at,
    status := derive_overall_status updated_segments,
    segments := updated_segments }

/-- The Veo SDK's video handle with its content `uri`, as read by
`VeoProvider._parse_operation_to_video`. -/
structure VeoVideoHandle where
  uri : Option String
deriving DecidableEq, Repr

/-- One entry of the Veo SDK's `generated_videos` list; `video` is the
`getattr(video, "video", None)` handle. -/
structure VeoGeneratedVideoEntry where
  video : Option VeoVideoHandle
deriving DecidableEq, Repr

/-- The Veo SDK operation response consumed by
`VeoProvider._parse_operation_to_video`. -/
structure VeoOperationResult where
  generated_videos : List VeoGeneratedVideoEntry
deriving DecidableEq, Repr

/-- `VeoProvider._parse_operation_to_video` (providers/veo.py lines
107-162): every status response's `created_at` is looked up in the
adapter's in-memory `_operations` map and falls back to the current time
`now` when the operation name is absent — which is always the case for the
fresh `VideoGenerationService` that `poll_and_save_video_generations`
constructs when no service is passed in. -/
def veo_parse_operation_to_video (operations : List (String × String))
    (now : String) (operation_name : String)
    (response : Option VeoOperationResult) (error : Option String) : GeneratedVideo :=
  let created_at := ((operations.lookup operation_name).getD now)
  match error with
  | some e =>
      { id := operation_name, status := .failed, created_at := created_at,
        error := some e, has_audio := some true }
  | none =>
    match response with
    | none =>
        { id := operation_name, status := .in_progress, created_at := created_at,
          has_audio := some true }
    | some resp =>
      match resp.generated_videos with
      | [] =>
          { id := operation_name, status := .in_progress, created_at := created_at,
            has_audio := some true }
      | entry :: _ =>
          { id := operation_name, status := .completed, created_at := created_at,
            video_url := (match entry.video with | some h => h.uri | none => none),
            has_audio := some true, resolution := some "720p" }

/-- The per-leaf identity of a result: its join key and provider (spec: "no
component ever deletes or reorders an existing result once assigned an
input_index"). -/
def leaf_skeleton (r : GenerationResult) : Nat × Provider := (r.input_index, r.provider)

/-- The shape of a segment: stored index, description, and leaf skeletons in
order. -/
def segment_skeleton (s : SegmentGeneration) : Nat × Option String × List (Nat × Provider) :=
  (s.segment_index, s.scene_description, s.generation_results.map leaf_skeleton)

/-- Concrete fixture: a queued video, as the orchestrator first records it. -/
def exVideoQueued : GeneratedVideo :=
  { id := "v", status := .queued, created_at := "T" }

/-- Concrete fixture: a completed video with a download url. -/
def exVideoCompleted : GeneratedVideo :=
  { id := "v", status := .completed, created_at := "T", video_url := some "u" }

/-- Concrete fixture: a leaf result wrapping the given video. -/
def exResult (p : Provider) (v : GeneratedVideo) : GenerationResult :=
  { input_index := 0, provider := p, video := v }

/-- Concrete fixture: a one-segment one-leaf tree whose only segment stores
`segment_index = stored_index` at position 0. -/
def exTree (res : GenerationResult) (stored_index : Nat) : VideoGenerations :=
  { project_id := "p", created_at := "T", status := .in_progress,
    segments :=
      [{ segment_index := stored_index, status := .in_progress,
         generation_results := [res] }] }

/-- Concrete fixture: an environment with constant oracles. -/
def exEnv (gs : Provider → String → Except String GeneratedVideo)
    (pe : Bool) (dl : DownloadOutcome) : PollEnv :=
  { get_status := gs, path_exists := fun _ => pe, download := fun _ _ _ _ => dl }

theorem isEmpty_map (f : α → β) (l : List α) : (l.map f).isEmpty = l.isEmpty := by
  cases l <;> rfl

theorem pymin_foldl_mem (key : Int → Nat) :
    ∀ (xs : List Int) (b : Int),
      xs.foldl (fun best y => if key y < key best then y else best) b = b ∨
      xs.foldl (fun best y => if key y < key best then y else best) b ∈ xs
  | [], _ => Or.inl rfl
  | y :: ys, b => by
    simp only [List.foldl_cons]
    rcases pymin_foldl_mem key ys (if key y < key b then y else b) with h | h
    · rw [h]
      split
      · exact Or.inr (List.mem_cons_self _ _)
      · exact Or.inl rfl
    · exact Or.inr (List.mem_cons_of_mem _ h)

theorem pymin_foldl_le (key : Int → Nat) :
    ∀ (xs : List Int) (b : Int),
      key (xs.foldl (fun best y => if key y < key best then y else best) b) ≤ key b ∧
      ∀ y ∈ xs,
        key (xs.foldl (fun best y => if key y < key best then y else best) b) ≤ key y
  | [], _ => ⟨le_refl _, by simp⟩
  | y :: ys, b => by
    simp only [List.foldl_cons]
    obtain ⟨h1, h2⟩ := pymin_foldl_le key ys (if key y < key b then y else b)
    have hb : key (if key y < key b then y else b) ≤ key b := by
      split
      · omega
      · exact le_refl _
    have hy : key (if key y < key b then y else b) ≤ key y := by
      split
      · exact le_refl _
      · omega
    refine ⟨le_trans h1 hb, ?_⟩
    intro z hz
    rcases List.mem_cons.mp hz with rfl | hz
    · exact le_trans h1 hy
    · exact h2 z hz

theorem pymin_mem (key : Int → Nat) (x : Int) (xs : List Int) :
    pymin key (x :: xs) ∈ x :: xs := by
  simp only [pymin]
  rcases pymin_foldl_mem key xs x with h | h
  · rw [h]; exact List.mem_cons_self _ _
  · exact List.mem_cons_of_mem _ h

theorem pymin_le (key : Int → Nat) (x : Int) (xs : List Int) :
    ∀ y ∈ x :: xs, key (pymin key (x :: xs)) ≤ key y := by
  intro y hy
  simp only [pymin]
  obtain ⟨h1, h2⟩ := pymin_foldl_le key xs x
  rcases List.mem_cons.mp hy with rfl | hy
  · exact h1
  · exact h2 y hy

theorem get_validated_duration_mem (q : ℚ) :
    get_validated_duration q = 4 ∨ get_validated_duration q = 6 ∨
      get_validated_duration q = 8 := by
  have h := pymin_mem (fun x => (x - python_round q).natAbs) 4 [6, 8]
  unfold get_validated_duration
  simpa using h

theorem derive_segment_status_eq_rule (results : List GenerationResult) :
    derive_segment_status results =
      spec_status_rule (fun s => decide (s = VideoStatus.completed))
        (fun s => decide (s = VideoStatus.failed))
        (fun s => decide (s = VideoStatus.in_progress) || decide (s = VideoStatus.queued))
        (results.map fun r => r.video.status) := by
  simp only [derive_segment_status, spec_status_rule, isEmpty_map]

theorem derive_overall_status_eq_rule (segments : List SegmentGeneration) :
    derive_overall_status segments =
      spec_status_rule (fun s => decide (s = AggStatus.completed))
        (fun s => decide (s = AggStatus.failed))
        (fun s => decide (s = AggStatus.in_progress))
        (segments.map fun s => s.status) := by
  simp only [derive_overall_status, spec_status_rule, isEmpty_map]

theorem derive_segment_status_completed_iff (results : List GenerationResult) :
    derive_segment_status results = .completed ↔
      results ≠ [] ∧ ∀ r ∈ results, r.video.status = .completed := by
  rw [derive_segment_status_eq_rule]
  unfold spec_status_rule
  split_ifs with h1 h2 h3 h4 <;> simp_all

theorem derive_segment_status_failed_of_any (results : List GenerationResult)
    (h : ∃ r ∈ results, r.video.status = .failed) :
    derive_segment_status results = .failed := by
  rw [derive_segment_status_eq_rule]
  unfold spec_status_rule
  obtain ⟨r, hr, hst⟩ := h
  split_ifs with h1 h2 h3 h4 <;> simp_all

theorem derive_segment_status_in_progress_of (results : List GenerationResult)
    (hnf : ∀ r ∈ results, r.video.status ≠ .failed)
    (hnc : ¬ ∀ r ∈ results, r.video.status = .completed)
    (hact : ∃ r ∈ results, r.video.status = .queued ∨ r.video.status = .in_progress) :
    derive_segment_status results = .in_progress := by
  rw [derive_segment_status_eq_rule]
  unfold spec_status_rule
  obtain ⟨r, hr, hst⟩ := hact
  split_ifs with h1 h2 h3 h4 <;> simp_all
  obtain ⟨a, ha, haf⟩ := h3
  exact hnf a ha haf

theorem derive_segment_status_pending_iff (results : List GenerationResult) :
    derive_segment_status results = .pending ↔ results = [] := by
  rw [derive_segment_status_eq_rule]
  unfold spec_status_rule
  split_ifs with h1 h2 h3 h4 <;> simp_all
  obtain ⟨r, hr, hrc⟩ := h2
  have hf := h3 r hr
  have ha := h4 r hr
  cases hst : r.video.status <;> simp_all

example : derive_segment_status [] = .pending := by decide
example :
    derive_segment_status
      [{ input_index := 0, provider := .sora,
         video := { id := "a", status := .completed, created_at := "t" } },
       { input_index := 1, provider := .veo,
         video := { id := "b", status := .failed, created_at := "t" } }] = .failed := by
  decide
example :
    derive_segment_status
      [{ input_index := 0, provider := .sora,
         video := { id := "a", status := .completed, created_at := "t" } }] = .completed := by
  decide

theorem sora_validate_duration_spec (d : Int) :
    SoraProvider.validate_duration d ∈ SoraProvider.SUPPORTED_DURATIONS ∧
    ∀ x ∈ SoraProvider.SUPPORTED_DURATIONS,
      (SoraProvider.validate_duration d - d).natAbs ≤ (x - d).natAbs := by
  unfold SoraProvider.validate_duration
  split_ifs with h
  · exact ⟨h, fun x _ => by simp⟩
  · simp only [SoraProvider.SUPPORTED_DURATIONS] at *
    exact ⟨pymin_mem _ 4 [8, 12],
      fun x hx => pymin_le (fun x => (x - d).natAbs) 4 [8, 12] x hx⟩

theorem veo_validate_duration_spec (d : Int) :
    VeoProvider.validate_duration d ∈ VeoProvider.SUPPORTED_DURATIONS ∧
    ∀ x ∈ VeoProvider.SUPPORTED_DURATIONS,
      (VeoProvider.validate_duration d - d).natAbs ≤ (x - d).natAbs := by
  unfold VeoProvider.validate_duration
  split_ifs with h
  · exact ⟨h, fun x _ => by simp⟩
  · simp only [VeoProvider.SUPPORTED_DURATIONS] at *
    exact ⟨pymin_mem _ 4 [6, 8],
      fun x hx => pymin_le (fun x => (x - d).natAbs) 4 [6, 8] x hx⟩

example : SoraProvider.validate_duration 6 = 4 := by decide
example : VeoProvider.validate_duration 6 = 6 := by decide
example : SoraProvider.validate_duration 5 = 4 := by decide
example : get_validated_duration 5 = 4 := by
  norm_num [get_validated_duration, python_round, pymin]
example : get_validated_duration 12 = 8 := by
  norm_num [get_validated_duration, python_round, pymin]

/-- C1: for every list of generation results, `_derive_segment_status`
returns `completed` iff every element's video status is `completed` and the
list is non-empty; returns `failed` if any element is `failed` (regardless of
the others, including a mix with `completed`); returns `in_progress` if no
element is `failed`, not all are `completed`, and at least one is `queued` or
`in_progress`; and returns `pending` iff the list is empty.  Both
`_derive_segment_status` and `_derive_overall_status` factor through the one
rule `spec_status_rule` with the same priority ordering (all-completed >
any-failed > any-active > pending); at the root level the rule is applied to
the segment statuses, whose type has no `queued` value. -/
theorem C1_derive_status_correct :
    (∀ results : List GenerationResult,
      (derive_segment_status results = .completed ↔
        results ≠ [] ∧ ∀ r ∈ results, r.video.status = .completed) ∧
      ((∃ r ∈ results, r.video.status = .failed) →
        derive_segment_status results = .failed) ∧
      (((∀ r ∈ results, r.video.status ≠ .failed) ∧
        ¬ (∀ r ∈ results, r.video.status = .completed) ∧
        ∃ r ∈ results, r.video.status = .queued ∨ r.video.status = .in_progress) →
        derive_segment_status results = .in_progress) ∧
      (derive_segment_status results = .pending ↔ results = []) ∧
      derive_segment_status results =
        spec_status_rule (fun s => decide (s = VideoStatus.completed))
          (fun s => decide (s = VideoStatus.failed))
          (fun s => decide (s = VideoStatus.in_progress) || decide (s = VideoStatus.queued))
          (results.map fun r => r.video.status)) ∧
    ∀ segments : List SegmentGeneration,
      derive_overall_status segments =
        spec_status_rule (fun s => decide (s = AggStatus.completed))
          (fun s => decide (s = AggStatus.failed))
          (fun s => decide (s = AggStatus.in_progress))
          (segments.map fun s => s.status) :=
  ⟨fun results =>
    ⟨derive_segment_status_completed_iff results,
     derive_segment_status_failed_of_any results,
     fun h => derive_segment_status_in_progress_of results h.1 h.2.1 h.2.2,
     derive_segment_status_pending_iff results,
     derive_segment_status_eq_rule results⟩,
   derive_overall_status_eq_rule⟩

/-- Witness for C1 at a concrete list: a mix of one `completed` and one
`failed` leaf derives `failed`. -/
theorem C1_derive_status_correct_witness :
    derive_segment_status
      [{ input_index := 0, provider := .sora,
         video := { id := "a", status := .completed, created_at := "t" } },
       { input_index := 1, provider := .veo,
         video := { id := "b", status := .failed, created_at := "t" } }] = .failed :=
  (C1_derive_status_correct.1 _).2.1
    ⟨{ input_index := 1, provider := .veo,
       video := { id := "b", status := .failed, created_at := "t" } },
     by decide, rfl⟩

/-- C9: each provider adapter snaps `config.duration` to a member of its
supported discrete duration set that minimises the absolute difference; in
particular for Sora (supported `{4, 8, 12}`) a requested duration of `6`
resolves to `4` or `8`, never to `12` and never stays `6`. -/
theorem C9_duration_snapping :
    (∀ d : Int,
      SoraProvider.validate_duration d ∈ SoraProvider.SUPPORTED_DURATIONS ∧
      ∀ x ∈ SoraProvider.SUPPORTED_DURATIONS,
        (SoraProvider.validate_duration d - d).natAbs ≤ (x - d).natAbs) ∧
    (∀ d : Int,
      VeoProvider.validate_duration d ∈ VeoProvider.SUPPORTED_DURATIONS ∧
      ∀ x ∈ VeoProvider.SUPPORTED_DURATIONS,
        (VeoProvider.validate_duration d - d).natAbs ≤ (x - d).natAbs) ∧
    (SoraProvider.validate_duration 6 = 4 ∨ SoraProvider.validate_duration 6 = 8) ∧
    SoraProvider.validate_duration 6 ≠ 12 ∧ SoraProvider.validate_duration 6 ≠ 6 :=
  ⟨sora_validate_duration_spec, veo_validate_duration_spec,
   Or.inl (by decide), by decide, by decide⟩

/-- Witness for C9 at the concrete duration 5: the snapped Sora duration is
supported and at least as close to 5 as the supported value 12 is. -/
theorem C9_duration_snapping_witness :
    (SoraProvider.validate_duration 5 - 5).natAbs ≤ ((12 : Int) - 5).natAbs :=
  (C9_duration_snapping.1 5).2 12 (by decide)

/-- C10: for every storyboard and every rational segment duration, the
`GenerationConfig.duration` that `generate_videos_from_project` passes to the
generation service lies in `{4, 6, 8}` (so `12` is never requested through
the orchestrator path). -/
theorem C10_orchestrator_duration_in_supported :
    ∀ (state : VideoProjectState), ∀ config ∈ generate_videos_configs state,
      config.duration = 4 ∨ config.duration = 6 ∨ config.duration = 8 := by
  intro state config hc
  simp only [generate_videos_configs, List.mem_map] at hc
  obtain ⟨seg, _, rfl⟩ := hc
  simpa [segment_generation_config] using get_validated_duration_mem seg.duration

/-- Witness for C10 on a one-segment storyboard with duration 5. -/
theorem C10_orchestrator_duration_in_supported_witness :
    (segment_generation_config
        { aspect_ratio := "16:9",
          storyboard := { segments := [{ scene_description := "s", duration := 5 }] } }
        { scene_description := "s", duration := 5 }).duration = 4 ∨
    (segment_generation_config
        { aspect_ratio := "16:9",
          storyboard := { segments := [{ scene_description := "s", duration := 5 }] } }
        { scene_description := "s", duration := 5 }).duration = 6 ∨
    (segment_generation_config
        { aspect_ratio := "16:9",
          storyboard := { segments := [{ scene_description := "s", duration := 5 }] } }
        { scene_description := "s", duration := 5 }).duration = 8 :=
  C10_orchestrator_duration_in_supported
    { aspect_ratio := "16:9",
      storyboard := { segments := [{ scene_description := "s", duration := 5 }] } }
    _ (by simp [generate_videos_configs])

theorem dict_get_eq_some_of_mem {β : Type} {l : List ((Nat × Nat) × β)} {k : Nat × Nat}
    {v : β} (hmem : (k, v) ∈ l) (huniq : ∀ w, (k, w) ∈ l → w = v) :
    dict_get l k = some v := by
  induction l with
  | nil => cases hmem
  | cons head tail ih =>
    obtain ⟨k', v'⟩ := head
    by_cases hk : k = k'
    · subst hk
      simp only [dict_get, if_pos rfl]
      exact congrArg some (huniq v' (List.mem_cons_self _ _))
    · simp only [dict_get, if_neg hk]
      rcases List.mem_cons.mp hmem with heq | hmem'
      · exact absurd (congrArg Prod.fst heq) hk
      · exact ih hmem' fun w hw => huniq w (List.mem_cons_of_mem _ hw)

theorem dict_get_eq_none_of_not_mem {β : Type} {l : List ((Nat × Nat) × β)} {k : Nat × Nat}
    (h : ∀ w, (k, w) ∉ l) : dict_get l k = none := by
  induction l with
  | nil => rfl
  | cons head tail ih =>
    obtain ⟨k', v'⟩ := head
    by_cases hk : k = k'
    · subst hk
      exact absurd (List.mem_cons_self _ _) (h v')
    · simp only [dict_get, if_neg hk]
      exact ih fun w hw => h w (List.mem_cons_of_mem _ hw)

theorem mem_enum_flatMap_filterMap {α β γ : Type} (l : List α) (g : α → List β)
    (f : Nat → Nat → β → Option γ) (x : γ) :
    (x ∈ l.enum.flatMap fun p => (g p.2).enum.filterMap fun q => f p.1 q.1 q.2) ↔
      ∃ s a r b, l[s]? = some a ∧ (g a)[r]? = some b ∧ f s r b = some x := by
  rw [List.mem_flatMap]
  constructor
  · rintro ⟨⟨s, a⟩, hp, hx⟩
    rw [List.mem_filterMap] at hx
    obtain ⟨⟨r, b⟩, hq, hf⟩ := hx
    rw [List.mk_mem_enum_iff_getElem?] at hp hq
    exact ⟨s, a, r, b, hp, hq, hf⟩
  · rintro ⟨s, a, r, b, hs, hr, hf⟩
    exact ⟨(s, a), List.mk_mem_enum_iff_getElem?.mpr hs,
      List.mem_filterMap.mpr ⟨(r, b), List.mk_mem_enum_iff_getElem?.mpr hr, hf⟩⟩

theorem getElem?_enumFrom_map {α β : Type} (f : Nat × α → β) :
    ∀ (l : List α) (n i : Nat),
      ((l.enumFrom n).map f)[i]? = (l[i]?).map fun a => f (n + i, a)
  | [], _, _ => by simp [List.enumFrom]
  | _ :: _, _, 0 => by simp [List.enumFrom]
  | x :: xs, n, i + 1 => by
    simp only [List.enumFrom, List.map_cons, List.getElem?_cons_succ]
    rw [getElem?_enumFrom_map f xs (n + 1) i]
    have h : n + 1 + i = n + (i + 1) := by omega
    rw [h]

theorem getElem?_enum_map {α β : Type} (f : Nat × α → β) (l : List α) (i : Nat) :
    (l.enum.map f)[i]? = (l[i]?).map fun a => f (i, a) := by
  have h := getElem?_enumFrom_map f l 0 i
  simpa [List.enum] using h

theorem mem_videos_to_check_iff (vg : VideoGenerations) (s r : Nat)
    (res : GenerationResult) :
    (s, r, res) ∈ videos_to_check vg ↔
      ∃ seg, vg.segments[s]? = some seg ∧ seg.generation_results[r]? = some res ∧
        (res.video.status = .queued ∨ res.video.status = .in_progress) := by
  refine Iff.trans
    (mem_enum_flatMap_filterMap vg.segments (fun seg => seg.generation_results)
      (fun s r b =>
        if b.video.status = .queued ∨ b.video.status = .in_progress then
          some (s, r, b)
        else none) (s, r, res)) ?_
  constructor
  · rintro ⟨s', seg, r', b, hs, hr, hf⟩
    split_ifs at hf with hc
    · simp only [Option.some.injEq, Prod.mk.injEq] at hf
      obtain ⟨rfl, rfl, rfl⟩ := hf
      exact ⟨seg, hs, hr, hc⟩
  · rintro ⟨seg, hs, hr, hc⟩
    exact ⟨s, seg, r, res, hs, hr, by rw [if_pos hc]⟩

theorem mem_updated_videos_iff (env : PollEnv) (vg : VideoGenerations)
    (s r : Nat) (v : GeneratedVideo) :
    ((s, r), v) ∈ updated_videos env vg ↔
      ∃ seg res, vg.segments[s]? = some seg ∧ seg.generation_results[r]? = some res ∧
        (res.video.status = .queued ∨ res.video.status = .in_progress) ∧
        (env.get_status res.provider res.video.id = .ok v ∨
          ∃ e, env.get_status res.provider res.video.id = .error e ∧ e ≠ "" ∧
            v = { res.video with error := some ("Status check failed: " ++ e) }) := by
  unfold updated_videos status_results
  rw [List.filterMap_map, List.mem_filterMap]
  constructor
  · rintro ⟨⟨s0, r0, res⟩, ht, hF⟩
    rw [mem_videos_to_check_iff] at ht
    obtain ⟨seg, hs, hr, hcond⟩ := ht
    cases hgs : env.get_status res.provider res.video.id with
    | ok v0 =>
      simp only [Function.comp, check_status, hgs, Option.some.injEq, Prod.mk.injEq] at hF
      obtain ⟨⟨rfl, rfl⟩, rfl⟩ := hF
      exact ⟨seg, res, hs, hr, hcond, Or.inl hgs⟩
    | error e =>
      simp only [Function.comp, check_status, hgs] at hF
      split_ifs at hF with he
      cases hseg : vg.segments[s0]? with
      | none =>
        simp only [hseg] at hF
        exact Option.noConfusion hF
      | some segment =>
        cases hres : segment.generation_results[r0]? with
        | none =>
          simp only [hseg, hres] at hF
          exact Option.noConfusion hF
        | some original =>
          simp only [hseg, hres, Option.some.injEq, Prod.mk.injEq] at hF
          obtain ⟨⟨rfl, rfl⟩, rfl⟩ := hF
          rw [hs] at hseg
          cases hseg
          rw [hr] at hres
          cases hres
          exact ⟨seg, res, hs, hr, hcond, Or.inr ⟨e, hgs, he, rfl⟩⟩
  · rintro ⟨seg, res, hs, hr, hcond, hv⟩
    refine ⟨(s, r, res), ?_, ?_⟩
    · rw [mem_videos_to_check_iff]
      exact ⟨seg, hs, hr, hcond⟩
    · rcases hv with hok | ⟨e, herr, hne, rfl⟩
      · simp [Function.comp, check_status, hok]
      · simp [Function.comp, check_status, herr, hne, hs, hr]

theorem dict_get_updated_videos (env : PollEnv) (vg : VideoGenerations)
    {s r : Nat} {seg : SegmentGeneration} {res : GenerationResult}
    (hs : vg.segments[s]? = some seg) (hr : seg.generation_results[r]? = some res) :
    dict_get (updated_videos env vg) (s, r) =
      if res.video.status = .queued ∨ res.video.status = .in_progress then
        match env.get_status res.provider res.video.id with
        | .ok v => some v
        | .error e =>
          if e = "" then none
          else some { res.video with error := some ("Status check failed: " ++ e) }
      else none := by
  split_ifs with hcond
  · cases hgs : env.get_status res.provider res.video.id with
    | ok v =>
      apply dict_get_eq_some_of_mem
      · exact (mem_updated_videos_iff env vg s r v).mpr ⟨seg, res, hs, hr, hcond, Or.inl hgs⟩
      · intro w hw
        obtain ⟨seg', res', hs', hr', _, hv⟩ := (mem_updated_videos_iff env vg s r w).mp hw
        rw [hs] at hs'
        cases hs'
        rw [hr] at hr'
        cases hr'
        rcases hv with hok | ⟨e, herr, _, _⟩
        · rw [hgs] at hok
          cases hok
          rfl
        · rw [hgs] at herr
          cases herr
    | error e =>
      dsimp only
      by_cases he : e = ""
      · subst he
        simp only [if_pos rfl]
        apply dict_get_eq_none_of_not_mem
        intro w hw
        obtain ⟨seg', res', hs', hr', _, hv⟩ := (mem_updated_videos_iff env vg s r w).mp hw
        rw [hs] at hs'
        cases hs'
        rw [hr] at hr'
        cases hr'
        rcases hv with hok | ⟨e', herr, hne, _⟩
        · rw [hgs] at hok
          cases hok
        · rw [hgs] at herr
          cases herr
          exact hne rfl
      · rw [if_neg he]
        apply dict_get_eq_some_of_mem
        · exact (mem_updated_videos_iff env vg s r _).mpr
            ⟨seg, res, hs, hr, hcond, Or.inr ⟨e, hgs, he, rfl⟩⟩
        · intro w hw
          obtain ⟨seg', res', hs', hr', _, hv⟩ := (mem_updated_videos_iff env vg s r w).mp hw
          rw [hs] at hs'
          cases hs'
          rw [hr] at hr'
          cases hr'
          rcases hv with hok | ⟨e', herr, _, hw2⟩
          · rw [hgs] at hok
            cases hok
          · rw [hgs] at herr
            cases herr
            exact hw2
  · apply dict_get_eq_none_of_not_mem
    intro w hw
    obtain ⟨seg', res', hs', hr', hcond', _⟩ := (mem_updated_videos_iff env vg s r w).mp hw
    rw [hs] at hs'
    cases hs'
    rw [hr] at hr'
    cases hr'
    exact hcond hcond'

theorem mem_videos_to_download_iff (env : PollEnv) (vg : VideoGenerations) (root : String)
    (s r : Nat) (res : GenerationResult) (p : String) :
    (s, r, res, p) ∈ videos_to_download env vg root ↔
      ∃ seg, vg.segments[s]? = some seg ∧ seg.generation_results[r]? = some res ∧
        p = get_video_local_path root vg.project_id s res.input_index
              (status_video env vg s r res).id ∧
        (status_video env vg s r res).status = .completed ∧
        truthy (status_video env vg s r res).video_url = true ∧
        env.path_exists p = false := by
  refine Iff.trans
    (mem_enum_flatMap_filterMap vg.segments (fun seg => seg.generation_results)
      (fun si ri b =>
        let video := status_video env vg si ri b
        let local_path := get_video_local_path root vg.project_id si b.input_index video.id
        if video.status = .completed ∧ truthy video.video_url = true ∧
            env.path_exists local_path = false then
          some (si, ri, b, local_path)
        else none) (s, r, res, p)) ?_
  constructor
  · rintro ⟨s', seg, r', b, hs, hr, hf⟩
    dsimp only at hf
    split_ifs at hf with hc
    · simp only [Option.some.injEq, Prod.mk.injEq] at hf
      obtain ⟨rfl, rfl, rfl, rfl⟩ := hf
      exact ⟨seg, hs, hr, rfl, hc.1, hc.2.1, hc.2.2⟩
  · rintro ⟨seg, hs, hr, hp, hst, hurl, hex⟩
    subst hp
    refine ⟨s, seg, r, res, hs, hr, ?_⟩
    dsimp only
    rw [if_pos ⟨hst, hurl, hex⟩]

theorem mem_download_errors_iff (env : PollEnv) (vg : VideoGenerations) (root : String)
    (s r : Nat) (err : String) :
    ((s, r), err) ∈ download_errors env vg root ↔
      ∃ res p, (s, r, res, p) ∈ videos_to_download env vg root ∧
        download_video_result
          (env.download ((status_video env vg s r res).video_url.getD "") p res.provider
            (if res.provider = .sora then env.openai_api_key else none)) = some err ∧
        err ≠ "" := by
  unfold download_errors download_results
  rw [List.filterMap_map, List.mem_filterMap]
  constructor
  · rintro ⟨⟨s0, r0, res, p⟩, ht, hF⟩
    dsimp only [Function.comp, download_one, status_video] at hF
    cases hdl : download_video_result
        (env.download
          (((dict_get (updated_videos env vg) (s0, r0)).getD res.video).video_url.getD "")
          p res.provider
          (if res.provider = .sora then env.openai_api_key else none)) with
    | none =>
      rw [hdl] at hF
      exact Option.noConfusion hF
    | some e =>
      rw [hdl] at hF
      dsimp only at hF
      split_ifs at hF with he
      simp only [Option.some.injEq, Prod.mk.injEq] at hF
      obtain ⟨⟨rfl, rfl⟩, rfl⟩ := hF
      exact ⟨res, p, ht, by simpa [status_video] using hdl, he⟩
  · rintro ⟨res, p, ht, hdl, hne⟩
    refine ⟨(s, r, res, p), ht, ?_⟩
    dsimp only [Function.comp, download_one, status_video]
    simp only [status_video] at hdl
    rw [hdl]
    dsimp only
    rw [if_neg hne]

theorem dict_get_download_errors (env : PollEnv) (vg : VideoGenerations) (root : String)
    {s r : Nat} {seg : SegmentGeneration} {res : GenerationResult}
    (hs : vg.segments[s]? = some seg) (hr : seg.generation_results[r]? = some res) :
    dict_get (download_errors env vg root) (s, r) =
      if (status_video env vg s r res).status = .completed ∧
          truthy (status_video env vg s r res).video_url = true ∧
          env.path_exists (get_video_local_path root vg.project_id s res.input_index
            (status_video env vg s r res).id) = false then
        match download_video_result
            (env.download ((status_video env vg s r res).video_url.getD "")
              (get_video_local_path root vg.project_id s res.input_index
                (status_video env vg s r res).id)
              res.provider
              (if res.provider = .sora then env.openai_api_key else none)) with
        | some e => if e = "" then none else some e
        | none => none
      else none := by
  by_cases hcond : (status_video env vg s r res).status = .completed ∧
      truthy (status_video env vg s r res).video_url = true ∧
      env.path_exists (get_video_local_path root vg.project_id s res.input_index
        (status_video env vg s r res).id) = false
  swap
  · rw [if_neg hcond]
    apply dict_get_eq_none_of_not_mem
    intro w hw
    obtain ⟨res', p', hvd, _, _⟩ := (mem_download_errors_iff env vg root s r w).mp hw
    obtain ⟨seg', hs', hr', hp', h1, h2, h3⟩ :=
      (mem_videos_to_download_iff env vg root s r res' p').mp hvd
    rw [hs] at hs'
    cases hs'
    rw [hr] at hr'
    cases hr'
    subst hp'
    exact hcond ⟨h1, h2, h3⟩
  · rw [if_pos hcond]
    cases hdl : download_video_result
        (env.download ((status_video env vg s r res).video_url.getD "")
          (get_video_local_path root vg.project_id s res.input_index
            (status_video env vg s r res).id)
          res.provider
          (if res.provider = .sora then env.openai_api_key else none)) with
    | none =>
      dsimp only
      apply dict_get_eq_none_of_not_mem
      intro w hw
      obtain ⟨res', p', hvd, hdl', hne⟩ := (mem_download_errors_iff env vg root s r w).mp hw
      obtain ⟨seg', hs', hr', hp', _, _, _⟩ :=
        (mem_videos_to_download_iff env vg root s r res' p').mp hvd
      rw [hs] at hs'
      cases hs'
      rw [hr] at hr'
      cases hr'
      subst hp'
      rw [hdl] at hdl'
      exact Option.noConfusion hdl'
    | some e =>
      dsimp only
      by_cases he : e = ""
      · rw [if_pos he]
        apply dict_get_eq_none_of_not_mem
        intro w hw
        obtain ⟨res', p', hvd, hdl', hne⟩ := (mem_download_errors_iff env vg root s r w).mp hw
        obtain ⟨seg', hs', hr', hp', _, _, _⟩ :=
          (mem_videos_to_download_iff env vg root s r res' p').mp hvd
        rw [hs] at hs'
        cases hs'
        rw [hr] at hr'
        cases hr'
        subst hp'
        rw [hdl] at hdl'
        injection hdl' with h
        subst h
        exact hne he
      · rw [if_neg he]
        have hmem : ((s, r), e) ∈ download_errors env vg root := by
          apply (mem_download_errors_iff env vg root s r e).mpr
          refine ⟨res, _, ?_, hdl, he⟩
          exact (mem_videos_to_download_iff env vg root s r res _).mpr
            ⟨seg, hs, hr, rfl, hcond.1, hcond.2.1, hcond.2.2⟩
        apply dict_get_eq_some_of_mem hmem
        intro w hw
        obtain ⟨res', p', hvd, hdl', _⟩ := (mem_download_errors_iff env vg root s r w).mp hw
        obtain ⟨seg', hs', hr', hp', _, _, _⟩ :=
          (mem_videos_to_download_iff env vg root s r res' p').mp hvd
        rw [hs] at hs'
        cases hs'
        rw [hr] at hr'
        cases hr'
        subst hp'
        rw [hdl] at hdl'
        injection hdl' with h
        exact h.symm

theorem poll_segments_getElem? (env : PollEnv) (vg : VideoGenerations) (root : String)
    (s : Nat) :
    (poll_and_save_video_generations env vg root).segments[s]? =
      (vg.segments[s]?).map fun seg => update_segment env vg root s seg := by
  unfold poll_and_save_video_generations
  exact getElem?_enum_map _ vg.segments s

theorem update_segment_results_getElem? (env : PollEnv) (vg : VideoGenerations)
    (root : String) (s : Nat) (segment : SegmentGeneration) (r : Nat) :
    (update_segment env vg root s segment).generation_results[r]? =
      (segment.generation_results[r]?).map fun res => update_result env vg root s r res := by
  unfold update_segment
  exact getElem?_enum_map _ segment.generation_results r

theorem poll_leaf (env : PollEnv) (vg : VideoGenerations) (root : String)
    {s r : Nat} {seg : SegmentGeneration} {res : GenerationResult}
    (hs : vg.segments[s]? = some seg) (hr : seg.generation_results[r]? = some res) :
    ∃ seg', (poll_and_save_video_generations env vg root).segments[s]? = some seg' ∧
      seg'.generation_results[r]? = some (update_result env vg root s r res) := by
  refine ⟨update_segment env vg root s seg, ?_, ?_⟩
  · rw [poll_segments_getElem?, hs]
    rfl
  · rw [update_segment_results_getElem?, hr]
    rfl

theorem update_result_video (env : PollEnv) (vg : VideoGenerations) (root : String)
    (s r : Nat) (res : GenerationResult) :
    (update_result env vg root s r res).video =
      match dict_get (download_errors env vg root) (s, r) with
      | some err =>
          { status_video env vg s r res with error := some ("Download failed: " ++ err) }
      | none => status_video env vg s r res := rfl

theorem map_enumFrom_map {α β γ : Type} (f : Nat → α → β) (proj : β → γ) (proj' : α → γ)
    (h : ∀ i x, proj (f i x) = proj' x) :
    ∀ (l : List α) (n : Nat), ((l.enumFrom n).map fun p => f p.1 p.2).map proj = l.map proj'
  | [], _ => rfl
  | x :: xs, n => by
    simp only [List.enumFrom, List.map_cons, h]
    rw [map_enumFrom_map f proj proj' h xs (n + 1)]

theorem update_segment_skeleton (env : PollEnv) (vg : VideoGenerations) (root : String)
    (i : Nat) (seg : SegmentGeneration) :
    segment_skeleton (update_segment env vg root i seg) = segment_skeleton seg := by
  unfold update_segment segment_skeleton
  simp only [Prod.mk.injEq, true_and]
  have h := map_enumFrom_map (fun r res => update_result env vg root i r res)
    leaf_skeleton leaf_skeleton (fun _ _ => rfl) seg.generation_results 0
  simpa [List.enum] using h

theorem poll_preserves_skeleton (env : PollEnv) (vg : VideoGenerations) (root : String) :
    (poll_and_save_video_generations env vg root).segments.map segment_skeleton =
      vg.segments.map segment_skeleton := by
  unfold poll_and_save_video_generations
  simp only
  have h := map_enumFrom_map (fun i seg => update_segment env vg root i seg)
    segment_skeleton segment_skeleton
    (fun i seg => update_segment_skeleton env vg root i seg) vg.segments 0
  simpa [List.enum] using h

theorem update_result_created_at (env : PollEnv) (vg : VideoGenerations) (root : String)
    (s r : Nat) (res : GenerationResult) :
    (update_result env vg root s r res).video.created_at =
      (status_video env vg s r res).created_at := by
  rw [update_result_video]
  cases dict_get (download_errors env vg root) (s, r) <;> rfl

theorem status_video_not_completed_no_download (env : PollEnv) (vg : VideoGenerations)
    (root : String) {s r : Nat} {seg : SegmentGeneration} {res : GenerationResult}
    (hs : vg.segments[s]? = some seg) (hr : seg.generation_results[r]? = some res)
    (h : (status_video env vg s r res).status ≠ .completed) :
    dict_get (download_errors env vg root) (s, r) = none := by
  rw [dict_get_download_errors env vg root hs hr, if_neg]
  intro hc
  exact h hc.1

/-- C8: one reconciliation pass preserves the tree's identity and shape: the
project id, the root `created_at`, the segment count and order, each
segment's stored `segment_index` and `scene_description`, each segment's
result count, and each leaf's `(input_index, provider)` pair in order; no
result is deleted, reordered or assigned a new index. -/
theorem C8_poll_preserves_shape (env : PollEnv) (vg : VideoGenerations) (root : String) :
    (poll_and_save_video_generations env vg root).project_id = vg.project_id ∧
    (poll_and_save_video_generations env vg root).created_at = vg.created_at ∧
    (poll_and_save_video_generations env vg root).segments.map segment_skeleton =
      vg.segments.map segment_skeleton :=
  ⟨rfl, rfl, poll_preserves_skeleton env vg root⟩

/-- C4: in a reconciliation pass, status checks are issued exactly for the
leaves whose current video status is `queued` or `in_progress`: a leaf at a
valid position is collected into `videos_to_check` iff it is non-terminal,
every collected entry is a valid leaf that is non-terminal (so `completed`
and `failed` leaves are never passed to `get_status`), and the status tasks
are precisely one `check_status` call per collected leaf. -/
theorem C4_status_checked_iff_nonterminal (env : PollEnv) (vg : VideoGenerations) :
    (∀ s r res seg, vg.segments[s]? = some seg → seg.generation_results[r]? = some res →
      ((s, r, res) ∈ videos_to_check vg ↔
        (res.video.status = .queued ∨ res.video.status = .in_progress))) ∧
    (∀ x ∈ videos_to_check vg,
      ∃ seg, vg.segments[x.1]? = some seg ∧ seg.generation_results[x.2.1]? = some x.2.2 ∧
        (x.2.2.video.status = .queued ∨ x.2.2.video.status = .in_progress)) ∧
    status_results env vg = (videos_to_check vg).map fun t => check_status env t.1 t.2.1 t.2.2 := by
  refine ⟨?_, ?_, rfl⟩
  · intro s r res seg hs hr
    rw [mem_videos_to_check_iff]
    constructor
    · rintro ⟨seg', _, _, hc⟩
      exact hc
    · intro hc
      exact ⟨seg, hs, hr, hc⟩
  · intro x hx
    obtain ⟨s, r, res⟩ := x
    exact (mem_videos_to_check_iff vg s r res).mp hx

/-- Witness for C4: a queued leaf at position (0, 0) is collected. -/
theorem C4_status_checked_iff_nonterminal_witness :
    (0, 0, exResult .sora exVideoQueued) ∈
      videos_to_check (exTree (exResult .sora exVideoQueued) 0) :=
  ((C4_status_checked_iff_nonterminal (exEnv (fun _ _ => .error "e") false .success)
      (exTree (exResult .sora exVideoQueued) 0)).1 0 0 _ _ rfl rfl).mpr (Or.inl rfl)

/-- C5: if a leaf's computed artifact path already exists on disk, the
download routine is never invoked for that leaf and the download phase
leaves its video (hence its `video_url` and `error`) exactly as the status
phase produced it; and downloads are issued only for leaves whose
status-phase video is `completed` with a truthy `video_url` and whose
artifact path does not exist. -/
theorem C5_idempotent_download (env : PollEnv) (vg : VideoGenerations) (root : String)
    {s r : Nat} {seg : SegmentGeneration} {res : GenerationResult}
    (hs : vg.segments[s]? = some seg) (hr : seg.generation_results[r]? = some res) :
    (env.path_exists (get_video_local_path root vg.project_id s res.input_index
        (status_video env vg s r res).id) = true →
      (∀ res' p', (s, r, res', p') ∉ videos_to_download env vg root) ∧
      ∃ seg', (poll_and_save_video_generations env vg root).segments[s]? = some seg' ∧
        seg'.generation_results[r]? = some
          { input_index := res.input_index, provider := res.provider,
            video := status_video env vg s r res }) ∧
    (∀ res' p', (s, r, res', p') ∈ videos_to_download env vg root →
      res' = res ∧
      p' = get_video_local_path root vg.project_id s res.input_index
        (status_video env vg s r res).id ∧
      (status_video env vg s r res).status = .completed ∧
      truthy (status_video env vg s r res).video_url = true ∧
      env.path_exists p' = false) := by
  have hpin : ∀ res' p', (s, r, res', p') ∈ videos_to_download env vg root →
      res' = res ∧
      p' = get_video_local_path root vg.project_id s res.input_index
        (status_video env vg s r res).id ∧
      (status_video env vg s r res).status = .completed ∧
      truthy (status_video env vg s r res).video_url = true ∧
      env.path_exists p' = false := by
    intro res' p' hmem
    obtain ⟨seg', hs', hr', hp', h1, h2, h3⟩ :=
      (mem_videos_to_download_iff env vg root s r res' p').mp hmem
    rw [hs] at hs'
    cases hs'
    rw [hr] at hr'
    cases hr'
    exact ⟨rfl, hp', h1, h2, by rw [hp'] at h3; rw [hp']; exact h3⟩
  refine ⟨?_, hpin⟩
  intro hex
  constructor
  · intro res' p' hmem
    obtain ⟨_, hp', _, _, h3⟩ := hpin res' p' hmem
    rw [hp'] at h3
    rw [hex] at h3
    exact Bool.noConfusion h3
  · have hde : dict_get (download_errors env vg root) (s, r) = none := by
      rw [dict_get_download_errors env vg root hs hr, if_neg]
      intro hc
      rw [hex] at hc
      exact Bool.noConfusion hc.2.2
    obtain ⟨seg', h1, h2⟩ := poll_leaf env vg root hs hr
    refine ⟨seg', h1, ?_⟩
    rw [h2]
    congr 1
    unfold update_result
    rw [hde]

/-- Witness for C5: a completed leaf whose artifact already exists is not
altered by the download phase. -/
theorem C5_idempotent_download_witness :
    ∃ seg',
      (poll_and_save_video_generations
          (exEnv (fun _ _ => .error "e") true (.request_error "net"))
          (exTree (exResult .sora exVideoCompleted) 0) "root").segments[0]? = some seg' ∧
      seg'.generation_results[0]? = some
        { input_index := (exResult .sora exVideoCompleted).input_index,
          provider := (exResult .sora exVideoCompleted).provider,
          video := status_video (exEnv (fun _ _ => .error "e") true (.request_error "net"))
            (exTree (exResult .sora exVideoCompleted) 0) 0 0
            (exResult .sora exVideoCompleted) } :=
  ((C5_idempotent_download (exEnv (fun _ _ => .error "e") true (.request_error "net"))
      (exTree (exResult .sora exVideoCompleted) 0) "root" rfl rfl).1 rfl).2

/-- C6 (amended): the artifact path computed for a leaf during the download
phase is the exact template
`{root}/data/video_generations_result_{project_id}/segment_{i}/generation_result_{input_index}/generated_video_{video_id}.mp4`,
where `i` is the POSITIONAL index of the segment in the tree's segment list
(which coincides with the stored `segment_index` for orchestrator-produced
trees) and the video id is that of the leaf's status-phase video. -/
theorem C6_artifact_path_convention (env : PollEnv) (vg : VideoGenerations) (root : String)
    {s r : Nat} {res : GenerationResult} {p : String}
    (hmem : (s, r, res, p) ∈ videos_to_download env vg root) :
    p = get_video_local_path root vg.project_id s res.input_index
          (status_video env vg s r res).id ∧
    p = root ++ "/data" ++ "/video_generations_result_" ++ vg.project_id ++
        "/segment_" ++ toString s ++ "/generation_result_" ++ toString res.input_index ++
        "/generated_video_" ++ (status_video env vg s r res).id ++ ".mp4" := by
  obtain ⟨seg', _, _, hp', _, _, _⟩ :=
    (mem_videos_to_download_iff env vg root s r res p).mp hmem
  exact ⟨hp', hp'⟩

/-- Witness for C6 (amended) on a concrete one-leaf tree: the collected
path equals the template. -/
theorem C6_artifact_path_convention_witness :
    ("root/data/video_generations_result_p/segment_0/generation_result_0/generated_video_v.mp4" : String) =
      "root" ++ "/data" ++ "/video_generations_result_" ++ "p" ++
      "/segment_" ++ toString (0 : Nat) ++ "/generation_result_" ++
      toString (exResult .sora exVideoCompleted).input_index ++
      "/generated_video_" ++
      (status_video (exEnv (fun _ _ => .error "e") false .success)
        (exTree (exResult .sora exVideoCompleted) 0) 0 0
        (exResult .sora exVideoCompleted)).id ++ ".mp4" :=
  (C6_artifact_path_convention (exEnv (fun _ _ => .error "e") false .success)
    (exTree (exResult .sora exVideoCompleted) 0) "root" (by decide)).2

/-- C6 counterexample: the path is keyed by the POSITIONAL index, not the
leaf's stored `segment_index`.  For a tree whose only segment stores
`segment_index = 1` but sits at position 0, the download phase computes a
`segment_0` path, while the claim's stored-index reading demands
`segment_1`. -/
theorem C6_counterexample :
    ((videos_to_download (exEnv (fun _ _ => .error "e") false .success)
        (exTree (exResult .sora exVideoCompleted) 1) "root").map fun t => t.2.2.2) =
      [get_video_local_path "root" "p" 0 0 "v"] ∧
    ((exTree (exResult .sora exVideoCompleted) 1).segments.map
      fun sg => sg.segment_index) = [1] ∧
    get_video_local_path "root" "p" 0 0 "v" ≠ get_video_local_path "root" "p" 1 0 "v" :=
  ⟨by decide, by decide, by decide⟩

/-- C2 (amended): a status-check failure on one leaf is contained.  Provided
the exception detail is non-empty, the failing leaf's returned video equals
its prior value except that `error` is set to `"Status check failed: " ++
detail` (its status and every other field unchanged), and every other leaf
whose check succeeded is still updated in the same pass: its status-phase
video is exactly the provider's response, and its returned video is that
response, at most overlaid with a download error.  The amendment restricts
the claim to non-empty details: an empty `str(e)` is falsy, so the
`elif error:` branch records nothing and the leaf is returned wholly
unchanged (see the counterexample). -/
theorem C2_status_error_containment (env : PollEnv) (vg : VideoGenerations)
    (root : String) {s r : Nat} {seg : SegmentGeneration} {res : GenerationResult}
    {e : String}
    (hs : vg.segments[s]? = some seg) (hr : seg.generation_results[r]? = some res)
    (hcond : res.video.status = .queued ∨ res.video.status = .in_progress)
    (hgs : env.get_status res.provider res.video.id = .error e) (hne : e ≠ "") :
    (∃ seg', (poll_and_save_video_generations env vg root).segments[s]? = some seg' ∧
      seg'.generation_results[r]? = some
        { input_index := res.input_index, provider := res.provider,
          video := { res.video with error := some ("Status check failed: " ++ e) } }) ∧
    (∀ s' r' seg2 res2 v, vg.segments[s']? = some seg2 →
      seg2.generation_results[r']? = some res2 →
      (res2.video.status = .queued ∨ res2.video.status = .in_progress) →
      env.get_status res2.provider res2.video.id = .ok v →
      status_video env vg s' r' res2 = v ∧
      ∃ seg2', (poll_and_save_video_generations env vg root).segments[s']? = some seg2' ∧
        ∃ res2', seg2'.generation_results[r']? = some res2' ∧
          res2'.input_index = res2.input_index ∧ res2'.provider = res2.provider ∧
          (res2'.video = v ∨ ∃ err,
            res2'.video = { v with error := some ("Download failed: " ++ err) })) := by
  constructor
  · have hdict : dict_get (updated_videos env vg) (s, r) =
        some { res.video with error := some ("Status check failed: " ++ e) } := by
      rw [dict_get_updated_videos env vg hs hr, if_pos hcond, hgs]
      dsimp only
      rw [if_neg hne]
    have hsv : status_video env vg s r res =
        { res.video with error := some ("Status check failed: " ++ e) } := by
      unfold status_video
      rw [hdict]
      rfl
    have hnc : (status_video env vg s r res).status ≠ .completed := by
      rw [hsv]
      rcases hcond with h | h <;> simp [h]
    have hde := status_video_not_completed_no_download env vg root hs hr hnc
    obtain ⟨seg', h1, h2⟩ := poll_leaf env vg root hs hr
    refine ⟨seg', h1, ?_⟩
    rw [h2]
    unfold update_result
    rw [hde, hsv]
  · intro s' r' seg2 res2 v hs' hr' hcond' hok
    have hdict : dict_get (updated_videos env vg) (s', r') = some v := by
      rw [dict_get_updated_videos env vg hs' hr', if_pos hcond', hok]
    have hsv : status_video env vg s' r' res2 = v := by
      unfold status_video
      rw [hdict]
      rfl
    refine ⟨hsv, ?_⟩
    obtain ⟨seg2', h1, h2⟩ := poll_leaf env vg root hs' hr'
    refine ⟨seg2', h1, update_result env vg root s' r' res2, h2, rfl, rfl, ?_⟩
    rw [update_result_video]
    cases hd : dict_get (download_errors env vg root) (s', r') with
    | none => exact Or.inl hsv
    | some err => exact Or.inr ⟨err, by rw [hsv]⟩

/-- Witness for C2 on a concrete one-leaf tree whose status check raises
with detail "boom". -/
theorem C2_status_error_containment_witness :
    ∃ seg',
      (poll_and_save_video_generations (exEnv (fun _ _ => .error "boom") false .success)
          (exTree (exResult .sora exVideoQueued) 0) "root").segments[0]? = some seg' ∧
      seg'.generation_results[0]? = some
        { input_index := (exResult .sora exVideoQueued).input_index,
          provider := (exResult .sora exVideoQueued).provider,
          video := { (exResult .sora exVideoQueued).video with
                     error := some ("Status check failed: " ++ "boom") } } :=
  (C2_status_error_containment (exEnv (fun _ _ => .error "boom") false .success)
      (exTree (exResult .sora exVideoQueued) 0) "root" rfl rfl (Or.inl rfl) rfl
      (by decide)).1

/-- C2 counterexample: with an empty exception detail, `elif error:` is
falsy and nothing is recorded for the failing leaf — its error field stays
`none` instead of being set to `"Status check failed: "` as the claim, read
for every raised error, requires. -/
theorem C2_counterexample :
    ((poll_and_save_video_generations (exEnv (fun _ _ => .error "") false .success)
        (exTree (exResult .sora exVideoQueued) 0) "root").segments.map
      fun sg => sg.generation_results.map fun q => q.video.error) = [[none]] ∧
    (none : Option String) ≠ some ("Status check failed: " ++ "") :=
  ⟨by decide, by decide⟩

/-- C3: a failed artifact download is contained: the leaf's status-phase
video was `completed` (downloads are attempted only for completed leaves),
and the returned leaf is exactly that video with
`error = "Download failed: " ++ detail`; the failure changes neither the
generation status (still `completed`) nor the `video_url`. -/
theorem C3_download_error_containment (env : PollEnv) (vg : VideoGenerations)
    (root : String) {s r : Nat} {seg : SegmentGeneration} {res : GenerationResult}
    {err : String}
    (hs : vg.segments[s]? = some seg) (hr : seg.generation_results[r]? = some res)
    (hde : dict_get (download_errors env vg root) (s, r) = some err) :
    (status_video env vg s r res).status = .completed ∧
    (∃ seg', (poll_and_save_video_generations env vg root).segments[s]? = some seg' ∧
      seg'.generation_results[r]? = some
        { input_index := res.input_index, provider := res.provider,
          video := { status_video env vg s r res with
                     error := some ("Download failed: " ++ err) } }) ∧
    ({ status_video env vg s r res with
       error := some ("Download failed: " ++ err) }).status =
      (status_video env vg s r res).status ∧
    ({ status_video env vg s r res with
       error := some ("Download failed: " ++ err) }).video_url =
      (status_video env vg s r res).video_url := by
  have hcomp : (status_video env vg s r res).status = .completed := by
    by_contra hnc
    rw [status_video_not_completed_no_download env vg root hs hr hnc] at hde
    exact Option.noConfusion hde
  refine ⟨hcomp, ?_, rfl, rfl⟩
  obtain ⟨seg', h1, h2⟩ := poll_leaf env vg root hs hr
  refine ⟨seg', h1, ?_⟩
  rw [h2]
  unfold update_result
  rw [hde]

/-- Witness for C3: a completed leaf whose download fails with a transport
error has a completed status-phase video. -/
theorem C3_download_error_containment_witness :
    (status_video (exEnv (fun _ _ => .error "e") false (.request_error "net"))
        (exTree (exResult .sora exVideoCompleted) 0) 0 0
        (exResult .sora exVideoCompleted)).status = .completed :=
  (C3_download_error_containment (exEnv (fun _ _ => .error "e") false (.request_error "net"))
      (exTree (exResult .sora exVideoCompleted) 0) "root" rfl rfl
      (show dict_get
          (download_errors (exEnv (fun _ _ => .error "e") false (.request_error "net"))
            (exTree (exResult .sora exVideoCompleted) 0) "root") (0, 0) =
        some ("Request error: " ++ "net") by decide)).1

/-- C7 (amended): the reconciliation pass itself never rewrites
`created_at`: a leaf that is not status-checked (already terminal) or whose
check raises keeps the `created_at` of the input tree; a leaf whose check
succeeds adopts the `created_at` of the provider's response.  The original
claim fails because that response's `created_at` need not equal the input's:
the Veo adapter reconstructs it from an in-memory operation map and
substitutes the current time when the map has no entry — always the case for
the fresh service `poll_and_save_video_generations` builds when none is
passed (see the counterexample). -/
theorem C7_created_at_provenance (env : PollEnv) (vg : VideoGenerations)
    (root : String) {s r : Nat} {seg : SegmentGeneration} {res : GenerationResult}
    (hs : vg.segments[s]? = some seg) (hr : seg.generation_results[r]? = some res) :
    (¬(res.video.status = .queued ∨ res.video.status = .in_progress) →
      ∃ seg', (poll_and_save_video_generations env vg root).segments[s]? = some seg' ∧
        ∃ res', seg'.generation_results[r]? = some res' ∧
          res'.video.created_at = res.video.created_at) ∧
    (∀ e, (res.video.status = .queued ∨ res.video.status = .in_progress) →
      env.get_status res.provider res.video.id = .error e →
      ∃ seg', (poll_and_save_video_generations env vg root).segments[s]? = some seg' ∧
        ∃ res', seg'.generation_results[r]? = some res' ∧
          res'.video.created_at = res.video.created_at) ∧
    (∀ v, (res.video.status = .queued ∨ res.video.status = .in_progress) →
      env.get_status res.provider res.video.id = .ok v →
      ∃ seg', (poll_and_save_video_generations env vg root).segments[s]? = some seg' ∧
        ∃ res', seg'.generation_results[r]? = some res' ∧
          res'.video.created_at = v.created_at) := by
  obtain ⟨seg', h1, h2⟩ := poll_leaf env vg root hs hr
  have hca := update_result_created_at env vg root s r res
  refine ⟨?_, ?_, ?_⟩
  · intro hterm
    refine ⟨seg', h1, _, h2, ?_⟩
    rw [hca]
    unfold status_video
    rw [dict_get_updated_videos env vg hs hr, if_neg hterm]
    rfl
  · intro e hcond hgs
    refine ⟨seg', h1, _, h2, ?_⟩
    rw [hca]
    unfold status_video
    rw [dict_get_updated_videos env vg hs hr, if_pos hcond, hgs]
    dsimp only
    by_cases he : e = ""
    · rw [if_pos he]
      rfl
    · rw [if_neg he]
      rfl
  · intro v hcond hgs
    refine ⟨seg', h1, _, h2, ?_⟩
    rw [hca]
    unfold status_video
    rw [dict_get_updated_videos env vg hs hr, if_pos hcond, hgs]
    rfl

/-- Witness for C7 (amended): a successfully checked leaf adopts the
response's `created_at`. -/
theorem C7_created_at_provenance_witness :
    ∃ seg',
      (poll_and_save_video_generations (exEnv (fun _ _ => .ok exVideoCompleted) false .success)
          (exTree (exResult .veo exVideoQueued) 0) "root").segments[0]? = some seg' ∧
      ∃ res', seg'.generation_results[0]? = some res' ∧
        res'.video.created_at = exVideoCompleted.created_at :=
  ((C7_created_at_provenance (exEnv (fun _ _ => .ok exVideoCompleted) false .success)
      (exTree (exResult .veo exVideoQueued) 0) "root" rfl rfl).2.2
    exVideoCompleted (Or.inl rfl) rfl)

/-- C7 counterexample: a queued Veo leaf created at "T" is polled through a
fresh adapter whose in-memory operation map is empty;
`_parse_operation_to_video` substitutes the current time "NOW", and the pass
writes that new `created_at` into the returned tree, contradicting the claim
that every leaf's `created_at` equals its value in the input tree. -/
theorem C7_counterexample :
    ((poll_and_save_video_generations
        (exEnv (fun _ name => .ok (veo_parse_operation_to_video [] "NOW" name none none))
          false .success)
        (exTree (exResult .veo exVideoQueued) 0) "root").segments.map
      fun sg => sg.generation_results.map fun q => q.video.created_at) = [["NOW"]] ∧
    ((exTree (exResult .veo exVideoQueued) 0).segments.map
      fun sg => sg.generation_results.map fun q => q.video.created_at) = [["T"]] ∧
    ("NOW" : String) ≠ "T" :=
  ⟨by decide, by decide, by decide⟩

end VideoGen